import Mathlib

/-!
Verification of the wolfden-manager timer core against its specification.

The TypeScript sources are shallowly embedded:
* ISO timestamps are modelled as integer seconds since the epoch
  (dayjs diff in seconds is exact integer subtraction in this model);
* JavaScript numbers used for progress percentages are modelled as rationals;
* nullable fields become Option;
* the JavaScript Map used for cardsBySection becomes an association list
  with JS-Map set/get semantics (set replaces the value of an existing key
  in place, otherwise appends);
* functions that read the wall clock take the current instant as an
  explicit argument.
-/

/-- TimerState from src/types/index.ts. ISO timestamp strings are modelled
as integer seconds since the epoch; null becomes none. -/
structure TimerState where
  startTime : Option Int
  endTime : Option Int
  initialDurationMinutes : Int
  isActive : Bool
deriving Repr, DecidableEq

/-- UserCard from src/types/index.ts. progressValue (a JS number) is a
rational; the optional timer field becomes Option TimerState. -/
structure UserCard where
  id : Int
  name : String
  progressValue : ℚ
  timer : Option TimerState
deriving Repr, DecidableEq

/-- Section from src/types/index.ts. -/
structure Section where
  id : Int
  name : String
deriving Repr, DecidableEq

/-- addMinutesToTimestamp from src/lib/utils/time.ts: dayjs add of a
signed number of minutes, i.e. a shift by minutes * 60 seconds. -/
def addMinutesToTimestamp (timestamp : Int) (minutes : Int) : Int :=
  timestamp + minutes * 60

/-- getRemainingSeconds from src/lib/utils/time.ts (the two-argument
version used by every caller; timer.service.ts lines 392-410): 0 when the
end timestamp is null; the full span endTime - startTime when a start
timestamp is supplied and now is before it; otherwise endTime - now. -/
def getRemainingSeconds (now : Int) (endTimestamp : Option Int)
    (startTimestamp : Option Int) : Int :=
  match endTimestamp with
  | none => 0
  | some endTime =>
    match startTimestamp with
    | some startTime =>
      if now < startTime then endTime - startTime else endTime - now
    | none => endTime - now

/-- The fixed one-hour window constant of calculateProgress. -/
def ONE_HOUR_IN_SECONDS : ℚ := 3600

/-- calculateProgress from src/lib/utils/time.ts (timer.service.ts lines
421-447): 0 for a non-positive configured duration; an overtime bar
100 + overtime/3600 * 100 capped at 200 when expired; pinned at 100 while
more than one hour remains; otherwise linear decay over the last hour,
clamped to the range 0 to 100. (The source also computes
initialSeconds = initialMinutes * 60, which no branch uses.) -/
def calculateProgress (initialMinutes : ℚ) (remainingSeconds : ℚ) : ℚ :=
  if initialMinutes ≤ 0 then 0
  else
    if remainingSeconds < 0 then
      min 200 (100 + (|remainingSeconds| / ONE_HOUR_IN_SECONDS) * 100)
    else if remainingSeconds > ONE_HOUR_IN_SECONDS then
      100
    else
      max 0 (min 100 (remainingSeconds / ONE_HOUR_IN_SECONDS * 100))

/-- isTimerExpired from src/lib/utils/time.ts. -/
def isTimerExpired (remainingSeconds : Int) : Bool :=
  remainingSeconds < 0

/-- calculateProgressVariant from src/lib/utils/time.ts. -/
def calculateProgressVariant (remainingSeconds : Int) : String :=
  if remainingSeconds = 0 then "default"
  else
    let remainingMinutes := Int.fdiv remainingSeconds 60
    let isExpired := remainingSeconds < 0
    if isExpired ∨ remainingMinutes ≤ 10 then "destructive"
    else if remainingMinutes ≤ 20 then "orange"
    else if remainingMinutes ≤ 30 then "warning"
    else "default"

/-- createTimer from timer.service.ts: start now, end now + duration. -/
def createTimer (now : Int) (durationMinutes : Int) : TimerState :=
  { startTime := some now
    endTime := some (now + durationMinutes * 60)
    initialDurationMinutes := durationMinutes
    isActive := true }

/-- addTimeToTimer from timer.service.ts lines 70-83: unchanged when the
timer is inactive or has no end time; otherwise shifts endTime by the
signed minutes and adds the same amount to initialDurationMinutes. -/
def addTimeToTimer (timer : TimerState) (minutes : Int) : TimerState :=
  match timer.isActive, timer.endTime with
  | true, some endTime =>
    { timer with
      endTime := some (addMinutesToTimestamp endTime minutes)
      initialDurationMinutes := timer.initialDurationMinutes + minutes }
  | _, _ => timer

/-- calculateTimerProgress from timer.service.ts lines 88-95: 0 for a
missing, inactive, or end-less timer; otherwise calculateProgress of the
configured duration and getRemainingSeconds of the timer's timestamps. -/
def calculateTimerProgress (now : Int) (timer : Option TimerState) : ℚ :=
  match timer with
  | none => 0
  | some t =>
    if !t.isActive || t.endTime.isNone then 0
    else
      calculateProgress (t.initialDurationMinutes : ℚ)
        ((getRemainingSeconds now t.endTime t.startTime : Int) : ℚ)

/-- C1: calculateProgress(initialMinutes, remainingSeconds) equals the
piecewise reference function of the spec: 0 when initialMinutes is not
positive; min(200, 100 + (|rs| / 3600) * 100) when rs is negative; 100
when rs exceeds 3600; otherwise (rs / 3600) * 100 clamped to the range
0 to 100 — the decay window and overtime denominator are the fixed
constant 3600 seconds for every initialMinutes. -/
theorem calculateProgress_piecewise (initialMinutes remainingSeconds : ℚ) :
    (initialMinutes ≤ 0 → calculateProgress initialMinutes remainingSeconds = 0)
    ∧ (0 < initialMinutes → remainingSeconds < 0 →
        calculateProgress initialMinutes remainingSeconds
          = min 200 (100 + (|remainingSeconds| / 3600) * 100))
    ∧ (0 < initialMinutes → remainingSeconds > 3600 →
        calculateProgress initialMinutes remainingSeconds = 100)
    ∧ (0 < initialMinutes → 0 ≤ remainingSeconds → remainingSeconds ≤ 3600 →
        calculateProgress initialMinutes remainingSeconds
          = max 0 (min 100 (remainingSeconds / 3600 * 100))) := by
  refine ⟨fun h => ?_, fun h hr => ?_, fun h hr => ?_, fun h hr hr' => ?_⟩ <;>
    simp only [calculateProgress, ONE_HOUR_IN_SECONDS]
  · rw [if_pos h]
  · rw [if_neg (by linarith), if_pos hr]
  · rw [if_neg (by linarith), if_neg (by linarith), if_pos hr]
  · rw [if_neg (by linarith), if_neg (by linarith), if_neg (by linarith)]

/-- Witness for C1: the theorem applied at concrete inputs, covering all
four branches. -/
theorem calculateProgress_piecewise_witness :
    calculateProgress 0 100 = 0
    ∧ calculateProgress 60 (-60) = min 200 (100 + ((|(-60 : ℚ)|) / 3600) * 100)
    ∧ calculateProgress 60 3601 = 100
    ∧ calculateProgress 60 1800 = max 0 (min 100 ((1800 : ℚ) / 3600 * 100)) :=
  ⟨(calculateProgress_piecewise 0 100).1 le_rfl,
   (calculateProgress_piecewise 60 (-60)).2.1 (by norm_num) (by norm_num),
   (calculateProgress_piecewise 60 3601).2.2.1 (by norm_num) (by norm_num),
   (calculateProgress_piecewise 60 1800).2.2.2 (by norm_num) (by norm_num)
     (by norm_num)⟩

/-- C2: for an active timer with an end time, the remaining seconds fed
into the progress calculation equal endTime - now, except that when a
start time is supplied and now is before it, they equal the full span
endTime - startTime. -/
theorem remainingSeconds_fed_into_progress (now e : Int) (t : TimerState)
    (hA : t.isActive = true) (hE : t.endTime = some e) :
    calculateTimerProgress now (some t)
      = calculateProgress (t.initialDurationMinutes : ℚ)
          ((getRemainingSeconds now t.endTime t.startTime : Int) : ℚ)
    ∧ (t.startTime = none →
        getRemainingSeconds now t.endTime t.startTime = e - now)
    ∧ (∀ s, t.startTime = some s → ¬ now < s →
        getRemainingSeconds now t.endTime t.startTime = e - now)
    ∧ (∀ s, t.startTime = some s → now < s →
        getRemainingSeconds now t.endTime t.startTime = e - s) := by
  refine ⟨?_, fun hS => ?_, fun s hS hns => ?_, fun s hS hlt => ?_⟩
  · simp [calculateTimerProgress, hA, hE]
  · simp [getRemainingSeconds, hS, hE]
  · simp [getRemainingSeconds, hS, hE, hns]
  · simp [getRemainingSeconds, hS, hE, hlt]

/-- Witness for C2: a timer configured from 100 to 700 observed at
now = 50 (before its start) yields the full span 600; observed at
now = 400 it yields 300 = 700 - 400. -/
theorem remainingSeconds_fed_into_progress_witness :
    getRemainingSeconds 50 (some 700) (some 100) = 700 - 100
    ∧ getRemainingSeconds 400 (some 700) (some 100) = 700 - 400
    ∧ calculateTimerProgress 400 (some ⟨some 100, some 700, 10, true⟩)
        = calculateProgress ((10 : Int) : ℚ)
            ((getRemainingSeconds 400 (some 700) (some 100) : Int) : ℚ) :=
  ⟨(remainingSeconds_fed_into_progress 50 700 ⟨some 100, some 700, 10, true⟩
      rfl rfl).2.2.2 100 rfl (by decide),
   (remainingSeconds_fed_into_progress 400 700 ⟨some 100, some 700, 10, true⟩
      rfl rfl).2.2.1 100 rfl (by decide),
   (remainingSeconds_fed_into_progress 400 700 ⟨some 100, some 700, 10, true⟩
      rfl rfl).1⟩

/-- C9: addTimeToTimer returns the timer unchanged when it is inactive or
has no end time; otherwise it shifts endTime by exactly the signed number
of minutes, adds the same amount to initialDurationMinutes, and leaves
startTime and isActive unchanged, with no range restriction. -/
theorem addTimeToTimer_spec (t : TimerState) (m : Int) :
    (t.isActive = false ∨ t.endTime = none → addTimeToTimer t m = t)
    ∧ (∀ e, t.isActive = true → t.endTime = some e →
        (addTimeToTimer t m).startTime = t.startTime
        ∧ (addTimeToTimer t m).isActive = t.isActive
        ∧ (addTimeToTimer t m).endTime = some (e + m * 60)
        ∧ (addTimeToTimer t m).initialDurationMinutes
            = t.initialDurationMinutes + m) := by
  constructor
  · rintro (h | h) <;> simp [addTimeToTimer, h]
  · intro e hA hE
    simp [addTimeToTimer, hA, hE, addMinutesToTimestamp]

/-- Witness for C9: an inactive timer is untouched; an active timer ending
at 3000 gains 5 minutes, moving its end to 3300 and its configured
duration from 10 to 15 even though nothing guards against a past end. -/
theorem addTimeToTimer_spec_witness :
    addTimeToTimer ⟨some 0, some 3000, 10, false⟩ 5
        = ⟨some 0, some 3000, 10, false⟩
    ∧ (addTimeToTimer ⟨some 0, some 3000, 10, true⟩ 5).startTime = some 0
    ∧ (addTimeToTimer ⟨some 0, some 3000, 10, true⟩ 5).isActive = true
    ∧ (addTimeToTimer ⟨some 0, some 3000, 10, true⟩ 5).endTime
        = some (3000 + 5 * 60)
    ∧ (addTimeToTimer ⟨some 0, some 3000, 10, true⟩ 5).initialDurationMinutes
        = 10 + 5 := by
  refine ⟨(addTimeToTimer_spec ⟨some 0, some 3000, 10, false⟩ 5).1
      (Or.inl rfl), ?_, ?_, ?_, ?_⟩
  · exact ((addTimeToTimer_spec ⟨some 0, some 3000, 10, true⟩ 5).2
      3000 rfl rfl).1
  · exact ((addTimeToTimer_spec ⟨some 0, some 3000, 10, true⟩ 5).2
      3000 rfl rfl).2.1
  · exact ((addTimeToTimer_spec ⟨some 0, some 3000, 10, true⟩ 5).2
      3000 rfl rfl).2.2.1
  · exact ((addTimeToTimer_spec ⟨some 0, some 3000, 10, true⟩ 5).2
      3000 rfl rfl).2.2.2

/-- Expiry notifier step from useTimerCalculations (the effect on
calculations.isExpired): a not-previously-expired observation of an
expired timer plays the sound and sets the previously-expired flag; a
not-expired observation clears the flag; otherwise nothing changes. The
result is the new flag paired with whether the notification fired. -/
def expiryStep (previousExpired : Bool) (isExpired : Bool) : Bool × Bool :=
  if isExpired && !previousExpired then (true, true)
  else if !isExpired then (false, false)
  else (previousExpired, false)

/-- Runs the expiry notifier over a sequence of observed isExpired values
from a given initial flag, returning the fired flags in order. -/
def runNotifier (previousExpired : Bool) : List Bool → List Bool
  | [] => []
  | e :: rest =>
    (expiryStep previousExpired e).2
      :: runNotifier (expiryStep previousExpired e).1 rest

/-- Full observation of one timer: the initialization effect of
useTimerCalculations sets the previously-expired flag to the first
observed isExpired value before the notification effect first runs, and
the notifier then processes every observation. -/
def observeTimer (observations : List Bool) : List Bool :=
  runNotifier (observations.headD false) observations

theorem expiryStep_eq (p e : Bool) : expiryStep p e = (e, e && !p) := by
  cases p <;> cases e <;> rfl

theorem runNotifier_getD (es : List Bool) : ∀ (p : Bool) (i : ℕ),
    (runNotifier p es).getD i false
      = ((es.getD i false) && !((p :: es).getD i false)) := by
  induction es with
  | nil => intro p i; simp [runNotifier]
  | cons e rest ih =>
    intro p i
    rw [runNotifier, expiryStep_eq]
    match i with
    | 0 => rfl
    | Nat.succ j => simpa using ih e j

/-- C4: the per-timer expiry notifier is a two-state machine over the
observed isExpired sequence: the flag after each step equals the observed
isExpired (set on an expired observation, cleared on a not-expired one);
starting from a flag initialized to the first observation, no notification
fires at the first observation even if the timer is already expired, and a
later observation fires exactly when it is expired and the previous one
was not — so a timer that stays expired never fires twice. -/
theorem expiry_notifier_edge_trigger (es : List Bool) (i : ℕ) (p e : Bool) :
    (expiryStep p e).1 = e
    ∧ (observeTimer es).length = es.length
    ∧ (observeTimer es).getD 0 false = false
    ∧ (observeTimer es).getD (i + 1) false
        = ((es.getD (i + 1) false) && !(es.getD i false)) := by
  refine ⟨by rw [expiryStep_eq], ?_, ?_, ?_⟩
  · show (runNotifier _ es).length = es.length
    generalize es.headD false = p
    induction es generalizing p with
    | nil => rfl
    | cons e rest ih => simpa [runNotifier] using ih _
  · rw [observeTimer, runNotifier_getD]
    cases es with
    | nil => rfl
    | cons e rest => simp
  · rw [observeTimer, runNotifier_getD]
    rfl

/-- Lookup in the JS Map modelled as an association list: the value at the
first entry whose key matches, as Map.prototype.get does (none models
undefined). -/
def mapGet : List (Int × List UserCard) → Int → Option (List UserCard)
  | [], _ => none
  | p :: rest, k => if p.1 = k then some p.2 else mapGet rest k

/-- JS Map.prototype.set: replace the value of an existing key in place,
otherwise append the new entry at the end. (A JS Map never holds a
duplicate key, so scanning for the first match is exact.) -/
def mapSet : List (Int × List UserCard) → Int → List UserCard →
    List (Int × List UserCard)
  | [], k, v => [(k, v)]
  | p :: rest, k, v =>
    if p.1 = k then (k, v) :: rest else p :: mapSet rest k v

theorem mapGet_mapSet_self (m : List (Int × List UserCard)) (k : Int)
    (v : List UserCard) : mapGet (mapSet m k v) k = some v := by
  induction m with
  | nil => simp [mapGet, mapSet]
  | cons p rest ih =>
    by_cases hp : p.1 = k
    · simp [mapGet, mapSet, hp]
    · simp [mapGet, mapSet, hp, ih]

theorem mapGet_mapSet_other (m : List (Int × List UserCard)) (k k' : Int)
    (v : List UserCard) (hne : k' ≠ k) :
    mapGet (mapSet m k v) k' = mapGet m k' := by
  have hne' : ¬ k = k' := Ne.symm hne
  induction m with
  | nil => simp [mapGet, mapSet, hne']
  | cons p rest ih =>
    by_cases hp : p.1 = k
    · have hp' : ¬ p.1 = k' := by omega
      simp [mapGet, mapSet, hp, hp', hne']
    · by_cases hp' : p.1 = k'
      · simp [mapGet, mapSet, hp, hp', hne]
      · simp [mapGet, mapSet, hp, hp', ih]

/-- AppState from persistence.service.ts: sections plus the cards Map
(modelled as an association list with unique keys). -/
structure AppState where
  sections : List Section
  cardsBySection : List (Int × List UserCard)
deriving Repr, DecidableEq

/-- STORAGE_VERSION from persistence.service.ts. -/
def STORAGE_VERSION : Int := 1

/-- SerializedState from persistence.service.ts: the JSON blob with the
Map converted to an array of key-value pairs. -/
structure SerializedState where
  version : Int
  sections : List Section
  cardsBySection : List (Int × List UserCard)
deriving Repr, DecidableEq

/-- What localStorage.getItem plus JSON.parse can yield for the stored
blob: nothing stored, a blob that fails to parse (JSON.parse throws, the
catch returns null), or a parsed SerializedState. -/
inductive StoredBlob where
  | absent : StoredBlob
  | malformed : StoredBlob
  | parsed : SerializedState → StoredBlob
deriving Repr, DecidableEq

/-- The Map constructor applied to an array of pairs, as loadState does:
set every pair in order into a fresh map. -/
def mapFromPairs (pairs : List (Int × List UserCard)) :
    List (Int × List UserCard) :=
  pairs.foldl (fun m p => mapSet m p.1 p.2) []

/-- loadState from persistence.service.ts lines 186-217: null when
nothing is stored or parsing threw; null (after a console warning, with no
migration) when the stored version differs from STORAGE_VERSION; otherwise
the parsed sections and the Map rebuilt from the serialized pairs. -/
def loadState (stored : StoredBlob) : Option AppState :=
  match stored with
  | StoredBlob.absent => none
  | StoredBlob.malformed => none
  | StoredBlob.parsed parsedState =>
    if parsedState.version ≠ STORAGE_VERSION then none
    else
      some { sections := parsedState.sections
             cardsBySection := mapFromPairs parsedState.cardsBySection }

/-- saveState from persistence.service.ts lines 223-248: serialize the
current version, the sections, and the Map's entries as an array of
key-value pairs. -/
def saveState (state : AppState) : SerializedState :=
  { version := STORAGE_VERSION
    sections := state.sections
    cardsBySection := state.cardsBySection }

theorem mapGet_nil (k : Int) : mapGet [] k = none := rfl

theorem mapSet_of_absent (acc : List (Int × List UserCard)) (k : Int)
    (v : List UserCard) (h : mapGet acc k = none) :
    mapSet acc k v = acc ++ [(k, v)] := by
  induction acc with
  | nil => rfl
  | cons p rest ih =>
    rw [mapGet] at h
    by_cases hp : p.1 = k
    · simp [hp] at h
    · rw [if_neg hp] at h
      simp [mapSet, hp, ih h]

theorem mapGet_append_singleton_none (acc : List (Int × List UserCard))
    (k k' : Int) (v : List UserCard) (h1 : mapGet acc k' = none)
    (h2 : ¬ k = k') : mapGet (acc ++ [(k, v)]) k' = none := by
  induction acc with
  | nil => simp [mapGet, h2]
  | cons p rest ih =>
    rw [mapGet] at h1
    by_cases hp : p.1 = k'
    · simp [hp] at h1
    · rw [if_neg hp] at h1
      simp [mapGet, hp, ih h1]

theorem foldl_mapSet_of_fresh :
    ∀ (pairs acc : List (Int × List UserCard)),
    (pairs.map Prod.fst).Nodup →
    (∀ k, k ∈ pairs.map Prod.fst → mapGet acc k = none) →
    pairs.foldl (fun m p => mapSet m p.1 p.2) acc = acc ++ pairs := by
  intro pairs
  induction pairs with
  | nil => intro acc _ _; simp
  | cons p rest ih =>
    intro acc hnd hfresh
    have hzero : mapGet acc p.1 = none := hfresh p.1 (by simp)
    rw [List.map_cons, List.nodup_cons] at hnd
    have hstep := mapSet_of_absent acc p.1 p.2 hzero
    rw [List.foldl_cons, hstep,
      ih (acc ++ [(p.1, p.2)]) hnd.2 (fun k hk => ?_)]
    · simp
    · have hk1 : mapGet acc k = none := hfresh k (by simp [hk])
      have hk2 : ¬ p.1 = k := fun h => hnd.1 (h ▸ hk)
      exact mapGet_append_singleton_none acc p.1 k p.2 hk1 hk2

theorem mapFromPairs_eq_self (pairs : List (Int × List UserCard))
    (hnd : (pairs.map Prod.fst).Nodup) : mapFromPairs pairs = pairs := by
  rw [mapFromPairs,
    foldl_mapSet_of_fresh pairs [] hnd (fun k _ => mapGet_nil k)]
  rfl

/-- C7: persistence round-trip. For every board state whose Map has
pairwise distinct section-id keys (the invariant of a JS Map), saving and
then loading yields exactly the saved sections and cardsBySection: the
Map is serialized as a list of pairs and reconstructed without loss, so
only the later progressValue recomputation can change anything. -/
theorem saveState_loadState_roundtrip (state : AppState)
    (hnd : (state.cardsBySection.map Prod.fst).Nodup) :
    loadState (StoredBlob.parsed (saveState state)) = some state := by
  rw [loadState, saveState]
  simp only [ne_eq, not_true_eq_false, if_false,
    mapFromPairs_eq_self _ hnd]

/-- Witness for C7: a two-section board with cards and timers survives the
round-trip exactly. -/
theorem saveState_loadState_roundtrip_witness :
    loadState (StoredBlob.parsed (saveState
      { sections := [⟨1, "den"⟩, ⟨2, "yard"⟩]
        cardsBySection :=
          [(1, [⟨1, "1", 50, some ⟨some 0, some 3600, 60, true⟩⟩]),
           (2, [])] }))
      = some
      { sections := [⟨1, "den"⟩, ⟨2, "yard"⟩]
        cardsBySection :=
          [(1, [⟨1, "1", 50, some ⟨some 0, some 3600, 60, true⟩⟩]),
           (2, [])] } :=
  saveState_loadState_roundtrip _ (by decide)

/-- C8: loadState returns none exactly when nothing is stored, the blob
fails to parse, or the stored version differs from STORAGE_VERSION (the
mismatch is discarded with no migration); in every other case it returns
the parsed sections and the Map rebuilt from the serialized pairs. -/
theorem loadState_characterization (stored : StoredBlob) :
    (loadState stored = none ↔
      stored = StoredBlob.absent ∨ stored = StoredBlob.malformed
        ∨ ∃ p, stored = StoredBlob.parsed p ∧ p.version ≠ STORAGE_VERSION)
    ∧ (∀ p, stored = StoredBlob.parsed p → p.version = STORAGE_VERSION →
        loadState stored = some { sections := p.sections
                                  cardsBySection :=
                                    mapFromPairs p.cardsBySection }) := by
  constructor
  · cases stored with
    | absent => simp [loadState]
    | malformed => simp [loadState]
    | parsed p =>
      simp only [loadState]
      by_cases hv : p.version = STORAGE_VERSION
      · simp [hv]
      · simp [hv]
  · intro p hp hv
    subst hp
    simp [loadState, hv]

/-- Witness for C8: a version-2 blob is discarded, and a version-1 blob
with one section loads as parsed. -/
theorem loadState_characterization_witness :
    loadState (StoredBlob.parsed ⟨2, [], []⟩) = none
    ∧ loadState (StoredBlob.parsed ⟨1, [⟨1, "den"⟩], []⟩)
        = some { sections := [⟨1, "den"⟩], cardsBySection := mapFromPairs [] } :=
  ⟨(loadState_characterization (StoredBlob.parsed ⟨2, [], []⟩)).1.mpr
      (Or.inr (Or.inr ⟨⟨2, [], []⟩, rfl, by decide⟩)),
   (loadState_characterization (StoredBlob.parsed ⟨1, [⟨1, "den"⟩], []⟩)).2
      ⟨1, [⟨1, "den"⟩], []⟩ rfl rfl⟩

/-- updateCardsProgress from timer.service.ts lines 100-110: recompute
progressValue for each card whose timer is active and has an end time;
return every other card as it is. -/
def updateCardsProgress (now : Int) (cards : List UserCard) :
    List UserCard :=
  cards.map (fun card =>
    match card.timer with
    | some t =>
      if t.isActive && t.endTime.isSome then
        { card with progressValue := calculateTimerProgress now card.timer }
      else card
    | none => card)

/-- The global one-second interval of AppStoreProvider (app-store.tsx
lines 460-476): each tick rebuilds the Map with every section's card list
passed through updateCardsProgress. -/
def schedulerTick (now : Int) (m : List (Int × List UserCard)) :
    List (Int × List UserCard) :=
  m.map (fun entry => (entry.1, updateCardsProgress now entry.2))

theorem mapGet_schedulerTick (now : Int) (m : List (Int × List UserCard))
    (s : Int) :
    mapGet (schedulerTick now m) s
      = (mapGet m s).map (updateCardsProgress now) := by
  induction m with
  | nil => rfl
  | cons p rest ih =>
    by_cases hp : p.1 = s
    · simp [schedulerTick, mapGet, hp]
    · simpa [schedulerTick, mapGet, hp] using ih

/-- C3: on every Scheduler tick, every card whose timer satisfies the
spec's TimerState invariant (an active timer has its end time set) is
recomputed when the timer is active, and every card with an absent or
inactive timer is returned with all fields identical, including its
cached progressValue. -/
theorem schedulerTick_frame (now : Int) (m : List (Int × List UserCard))
    (s : Int) (cards : List UserCard) (i : ℕ) (c : UserCard)
    (hs : mapGet m s = some cards) (hc : cards[i]? = some c)
    (hinv : ∀ t, c.timer = some t → t.isActive = true →
      t.endTime.isSome = true) :
    ∃ cards', mapGet (schedulerTick now m) s = some cards'
      ∧ cards'[i]? = some (match c.timer with
          | some t =>
            if t.isActive then
              { c with progressValue := calculateTimerProgress now c.timer }
            else c
          | none => c) := by
  refine ⟨updateCardsProgress now cards, ?_, ?_⟩
  · rw [mapGet_schedulerTick, hs]
    rfl
  · rw [updateCardsProgress, List.getElem?_map, hc]
    cases htimer : c.timer with
    | none => simp [htimer]
    | some t =>
      cases hA : t.isActive with
      | false => simp [htimer, hA]
      | true => simp [htimer, hA, hinv t htimer hA]

/-- Witness for C3: a one-section board holding one active card and one
inactive one; the tick recomputes the first and returns the second
unchanged. -/
theorem schedulerTick_frame_witness :
    (∃ cards',
      mapGet (schedulerTick 0
          [(1, [⟨1, "1", 50, some ⟨some 0, some 3600, 60, true⟩⟩,
                ⟨2, "2", 50, none⟩])]) 1 = some cards'
        ∧ cards'[0]? = some ⟨1, "1",
            calculateTimerProgress 0 (some ⟨some 0, some 3600, 60, true⟩),
            some ⟨some 0, some 3600, 60, true⟩⟩)
    ∧ (∃ cards',
      mapGet (schedulerTick 0
          [(1, [⟨1, "1", 50, some ⟨some 0, some 3600, 60, true⟩⟩,
                ⟨2, "2", 50, none⟩])]) 1 = some cards'
        ∧ cards'[1]? = some ⟨2, "2", 50, none⟩) :=
  ⟨schedulerTick_frame 0
      [(1, [⟨1, "1", 50, some ⟨some 0, some 3600, 60, true⟩⟩,
            ⟨2, "2", 50, none⟩])] 1
      [⟨1, "1", 50, some ⟨some 0, some 3600, 60, true⟩⟩,
       ⟨2, "2", 50, none⟩] 0
      ⟨1, "1", 50, some ⟨some 0, some 3600, 60, true⟩⟩ rfl rfl
      (fun t ht _ => by cases ht; rfl),
   schedulerTick_frame 0
      [(1, [⟨1, "1", 50, some ⟨some 0, some 3600, 60, true⟩⟩,
            ⟨2, "2", 50, none⟩])] 1
      [⟨1, "1", 50, some ⟨some 0, some 3600, 60, true⟩⟩,
       ⟨2, "2", 50, none⟩] 1
      ⟨2, "2", 50, none⟩ rfl rfl
      (fun t ht => by cases ht)⟩

/-- generateNextId from src/lib/utils/id.ts: 1 for an empty collection,
otherwise the maximum existing id plus one (Math.max over the spread
ids). -/
def generateNextId (existingIds : List Int) : Int :=
  match existingIds with
  | [] => 1
  | x :: xs => xs.foldl max x + 1

/-- createCard from card.service.ts lines 123-130: a fresh card named
after its id, with zero progress and no timer. -/
def createCard (existingCards : List UserCard) : UserCard :=
  let newId := generateNextId (existingCards.map (fun c => c.id))
  { id := newId, name := toString newId, progressValue := 0, timer := none }

/-- handleAddCard from app-store.tsx lines 516-524: read the section's
list (empty when the key is absent), append a fresh card, and set the key
— creating it when absent, even for a section id with no Section. -/
def handleAddCard (m : List (Int × List UserCard)) (sectionId : Int) :
    List (Int × List UserCard) :=
  let currentCards := (mapGet m sectionId).getD []
  mapSet m sectionId (currentCards ++ [createCard currentCards])

theorem self_le_foldl_max : ∀ (xs : List Int) (x : Int),
    x ≤ xs.foldl max x := by
  intro xs
  induction xs with
  | nil => intro x; exact le_refl x
  | cons z zs ih =>
    intro x
    exact le_trans (le_max_left x z) (ih (max x z))

theorem le_foldl_max : ∀ (xs : List Int) (x y : Int),
    (y = x ∨ y ∈ xs) → y ≤ xs.foldl max x := by
  intro xs
  induction xs with
  | nil =>
    intro x y h
    rcases h with h | h
    · exact h.le
    · simp at h
  | cons z zs ih =>
    intro x y h
    rw [List.foldl_cons]
    rcases h with h | h
    · exact le_trans (h.le.trans (le_max_left x z)) (self_le_foldl_max zs _)
    · rcases List.mem_cons.mp h with h | h
      · exact le_trans (h.le.trans (le_max_right x z)) (self_le_foldl_max zs _)
      · exact ih (max x z) y (Or.inr h)

theorem foldl_max_mem : ∀ (xs : List Int) (x : Int),
    xs.foldl max x = x ∨ xs.foldl max x ∈ xs := by
  intro xs
  induction xs with
  | nil => intro x; exact Or.inl rfl
  | cons z zs ih =>
    intro x
    rw [List.foldl_cons]
    rcases ih (max x z) with h | h
    · rcases max_choice x z with hxz | hxz
      · exact Or.inl (h.trans hxz)
      · exact Or.inr (List.mem_cons.mpr (Or.inl (h.trans hxz)))
    · exact Or.inr (List.mem_cons.mpr (Or.inr h))

/-- C10: addCard(sectionId) always succeeds, appending exactly one fresh
card to the list at that key — creating the key when absent, even for a
section id with no Section — whose id is one more than the maximum id
already in the list (1 when the list is empty or absent), whose name is
the decimal string of that id, with zero progress and no timer; every
other entry of cardsBySection is unchanged. -/
theorem handleAddCard_spec (m : List (Int × List UserCard))
    (sectionId : Int) :
    mapGet (handleAddCard m sectionId) sectionId
      = some ((mapGet m sectionId).getD []
          ++ [createCard ((mapGet m sectionId).getD [])])
    ∧ (∀ s', s' ≠ sectionId →
        mapGet (handleAddCard m sectionId) s' = mapGet m s')
    ∧ (createCard ((mapGet m sectionId).getD [])).name
        = toString (createCard ((mapGet m sectionId).getD [])).id
    ∧ (createCard ((mapGet m sectionId).getD [])).progressValue = 0
    ∧ (createCard ((mapGet m sectionId).getD [])).timer = none
    ∧ ((mapGet m sectionId).getD [] = [] →
        (createCard ((mapGet m sectionId).getD [])).id = 1)
    ∧ (∀ c ∈ (mapGet m sectionId).getD [],
        c.id < (createCard ((mapGet m sectionId).getD [])).id)
    ∧ ((mapGet m sectionId).getD [] ≠ [] →
        ∃ c ∈ (mapGet m sectionId).getD [],
          c.id = (createCard ((mapGet m sectionId).getD [])).id - 1) := by
  refine ⟨mapGet_mapSet_self m sectionId _,
    fun s' hs' => mapGet_mapSet_other m sectionId s' _ hs', rfl, rfl, rfl,
    ?_, ?_, ?_⟩
  · intro hempty
    rw [createCard, hempty]
    rfl
  · intro c hc
    cases hold : (mapGet m sectionId).getD [] with
    | nil => rw [hold] at hc; simp at hc
    | cons c0 rest =>
      rw [hold] at hc
      have hid : c.id ∈ (c0 :: rest).map (fun d => d.id) :=
        List.mem_map.mpr ⟨c, hc, rfl⟩
      rw [List.map_cons, List.mem_cons] at hid
      have := le_foldl_max (rest.map (fun d => d.id)) c0.id c.id hid
      simp only [createCard, hold, generateNextId, List.map_cons]
      omega
  · intro hne
    cases hold : (mapGet m sectionId).getD [] with
    | nil => exact absurd hold hne
    | cons c0 rest =>
      have hmem := foldl_max_mem (rest.map (fun d => d.id)) c0.id
      simp only [createCard, hold, generateNextId, List.map_cons]
      rcases hmem with h | h
      · exact ⟨c0, List.mem_cons_self c0 rest, by omega⟩
      · obtain ⟨c, hc, hcid⟩ := List.mem_map.mp h
        exact ⟨c, List.mem_cons_of_mem c0 hc, by omega⟩

/-- Witness for C10: adding a card to an absent key 7 of a one-entry map
creates the key with a single card with id 1; adding to the existing key
1 whose cards have ids 1 and 3 appends a card with id 4 named "4". -/
theorem handleAddCard_spec_witness :
    mapGet (handleAddCard [(1, [⟨1, "1", 0, none⟩, ⟨3, "3", 0, none⟩])] 7) 7
      = some [createCard []]
    ∧ (createCard
        ((mapGet [(1, [⟨1, "1", 0, (none : Option TimerState)⟩,
            ⟨3, "3", 0, none⟩])] 1).getD [])).id = 1 + 3
    ∧ (∃ c ∈ (mapGet [(1, [⟨1, "1", 0, (none : Option TimerState)⟩,
          ⟨3, "3", 0, none⟩])] 1).getD [],
        c.id = (createCard ((mapGet [(1, [⟨1, "1", 0, none⟩,
          ⟨3, "3", 0, none⟩])] 1).getD [])).id - 1) := by
  refine ⟨?_, by decide, ?_⟩
  · have h := (handleAddCard_spec
      [(1, [⟨1, "1", 0, none⟩, ⟨3, "3", 0, none⟩])] 7).1
    simpa using h
  · exact (handleAddCard_spec
      [(1, [⟨1, "1", 0, none⟩, ⟨3, "3", 0, none⟩])] 1).2.2.2.2.2.2.2
      (by decide)

/-- Placeholder used to model a JS indexed access that is only evaluated
at a found index. -/
def defaultCard : UserCard := ⟨0, "", 0, none⟩

/-- Array.prototype.findIndex over card ids, with none modelling -1. -/
def findCardIdx (cardId : Int) : List UserCard → Option ℕ
  | [] => none
  | card :: rest =>
    if card.id = cardId then some 0
    else (findCardIdx cardId rest).map (fun i => i + 1)

/-- The cross-section branch's map((card, index) => ...) of
handleSwapCardTimers: the card at index target gets the given timer and
progress; idx is the running index. -/
def updAt (target : ℕ) (t : Option TimerState) (p : ℚ) :
    ℕ → List UserCard → List UserCard
  | _, [] => []
  | idx, card :: rest =>
    (if idx = target then { card with timer := t, progressValue := p }
     else card) :: updAt target t p (idx + 1) rest

/-- The same-section branch's map((card, index) => ...) of
handleSwapCardTimers: index i1 receives timer2 with progress1, index i2
receives timer1 with progress2, the first branch winning when the indices
coincide. -/
def swapMapSame (i1 i2 : ℕ) (t1 t2 : Option TimerState) (p1 p2 : ℚ) :
    ℕ → List UserCard → List UserCard
  | _, [] => []
  | idx, card :: rest =>
    (if idx = i1 then { card with timer := t2, progressValue := p1 }
     else if idx = i2 then { card with timer := t1, progressValue := p2 }
     else card) :: swapMapSame i1 i2 t1 t2 p1 p2 (idx + 1) rest

/-- The ternary timer ? calculateTimerProgress(timer) : 0 used by
handleSwapCardTimers for both recomputed progress values. -/
def progressOf (now : Int) (timer : Option TimerState) : ℚ :=
  match timer with
  | some t => calculateTimerProgress now (some t)
  | none => 0

/-- handleSwapCardTimers from app-store.tsx lines 652-706, acting on the
cardsBySection Map: find both cards by id in their claimed sections; a
missing card on either side returns the previous state unchanged;
otherwise exchange the two timer values, recompute both progress values
from the newly received timers, and write the rebuilt list(s) back —
one list when the sections coincide, two otherwise. -/
def swapCardTimers (now : Int) (prev : List (Int × List UserCard))
    (sectionId1 cardId1 sectionId2 cardId2 : Int) :
    List (Int × List UserCard) :=
  let originalCards1 := (mapGet prev sectionId1).getD []
  let originalCards2 := (mapGet prev sectionId2).getD []
  match findCardIdx cardId1 originalCards1,
      findCardIdx cardId2 originalCards2 with
  | some card1Index, some card2Index =>
    let card1 := (originalCards1[card1Index]?).getD defaultCard
    let card2 := (originalCards2[card2Index]?).getD defaultCard
    let timer1 := card1.timer
    let timer2 := card2.timer
    let progress1 := progressOf now timer2
    let progress2 := progressOf now timer1
    if sectionId1 = sectionId2 then
      mapSet prev sectionId1
        (swapMapSame card1Index card2Index timer1 timer2
          progress1 progress2 0 originalCards1)
    else
      mapSet
        (mapSet prev sectionId1
          (updAt card1Index timer2 progress1 0 originalCards1))
        sectionId2 (updAt card2Index timer1 progress2 0 originalCards2)
  | _, _ => prev

/-- The store-level operation: setCardsBySection with the swapped map;
the sections list is not touched. -/
def handleSwapCardTimers (now : Int) (state : AppState)
    (sectionId1 cardId1 sectionId2 cardId2 : Int) : AppState :=
  { state with
    cardsBySection :=
      swapCardTimers now state.cardsBySection
        sectionId1 cardId1 sectionId2 cardId2 }

/-- Reads the first card with the given id in the given section, the
observation the swap claims are stated on. -/
def cardAt (m : List (Int × List UserCard)) (s cardId : Int) :
    Option UserCard :=
  let cards := (mapGet m s).getD []
  match findCardIdx cardId cards with
  | some i => cards[i]?
  | none => none

theorem updAt_id_preserved (target : ℕ) (t : Option TimerState) (p : ℚ) :
    ∀ (l : List UserCard) (k : ℕ) (cardId : Int),
    findCardIdx cardId (updAt target t p k l) = findCardIdx cardId l := by
  intro l
  induction l with
  | nil => intro k cardId; rfl
  | cons card rest ih =>
    intro k cardId
    by_cases hk : k = target
    · simp [updAt, findCardIdx, hk, ih]
    · simp [updAt, findCardIdx, hk, ih]

theorem swapMapSame_id_preserved (i1 i2 : ℕ) (t1 t2 : Option TimerState)
    (p1 p2 : ℚ) : ∀ (l : List UserCard) (k : ℕ) (cardId : Int),
    findCardIdx cardId (swapMapSame i1 i2 t1 t2 p1 p2 k l)
      = findCardIdx cardId l := by
  intro l
  induction l with
  | nil => intro k cardId; rfl
  | cons card rest ih =>
    intro k cardId
    by_cases hk1 : k = i1
    · simp [swapMapSame, findCardIdx, hk1, ih]
    · by_cases hk2 : k = i2
      · simp [swapMapSame, findCardIdx, hk1, hk2,
          apply_ite (fun c : UserCard => c.id), ih]
      · simp [swapMapSame, findCardIdx, hk1, hk2, ih]

theorem getElem?_updAt (target : ℕ) (t : Option TimerState) (p : ℚ) :
    ∀ (l : List UserCard) (k j : ℕ),
    (updAt target t p k l)[j]?
      = (l[j]?).map (fun c =>
          if k + j = target then { c with timer := t, progressValue := p }
          else c) := by
  intro l
  induction l with
  | nil => intro k j; simp [updAt]
  | cons card rest ih =>
    intro k j
    match j with
    | 0 => simp [updAt]
    | Nat.succ j' =>
      have harith : k + (j' + 1) = (k + 1) + j' := by omega
      simp only [updAt, List.getElem?_cons_succ, ih (k + 1) j', harith]

theorem getElem?_swapMapSame (i1 i2 : ℕ) (t1 t2 : Option TimerState)
    (p1 p2 : ℚ) : ∀ (l : List UserCard) (k j : ℕ),
    (swapMapSame i1 i2 t1 t2 p1 p2 k l)[j]?
      = (l[j]?).map (fun c =>
          if k + j = i1 then { c with timer := t2, progressValue := p1 }
          else if k + j = i2 then { c with timer := t1, progressValue := p2 }
          else c) := by
  intro l
  induction l with
  | nil => intro k j; simp [swapMapSame]
  | cons card rest ih =>
    intro k j
    match j with
    | 0 => simp [swapMapSame]
    | Nat.succ j' =>
      have harith : k + (j' + 1) = (k + 1) + j' := by omega
      simp only [swapMapSame, List.getElem?_cons_succ, ih (k + 1) j',
        harith]

/-- C6: a swap request in which either card id cannot be found in its
claimed section leaves the whole store state — sections and every card of
every section — unchanged, and raises no error (the operation is total). -/
theorem swapCardTimers_missing_noop (now : Int) (state : AppState)
    (s1 c1 s2 c2 : Int)
    (h : findCardIdx c1 ((mapGet state.cardsBySection s1).getD []) = none
      ∨ findCardIdx c2 ((mapGet state.cardsBySection s2).getD []) = none) :
    handleSwapCardTimers now state s1 c1 s2 c2 = state := by
  have hswap : swapCardTimers now state.cardsBySection s1 c1 s2 c2
      = state.cardsBySection := by
    rcases h with h | h
    · cases h2 : findCardIdx c2 ((mapGet state.cardsBySection s2).getD [])
        with
      | none => simp [swapCardTimers, h, h2]
      | some i2 => simp [swapCardTimers, h, h2]
    · cases h1 : findCardIdx c1 ((mapGet state.cardsBySection s1).getD [])
        with
      | none => simp [swapCardTimers, h, h1]
      | some i1 => simp [swapCardTimers, h, h1]
  rw [handleSwapCardTimers, hswap]

/-- Witness for C6: asking to swap a card id 2 that does not exist in
section 1 changes nothing. -/
theorem swapCardTimers_missing_noop_witness :
    handleSwapCardTimers 0
        ⟨[⟨1, "den"⟩], [(1, [⟨1, "1", 0, none⟩])]⟩ 1 2 1 1
      = ⟨[⟨1, "den"⟩], [(1, [⟨1, "1", 0, none⟩])]⟩ :=
  swapCardTimers_missing_noop 0
    ⟨[⟨1, "den"⟩], [(1, [⟨1, "1", 0, none⟩])]⟩ 1 2 1 1
    (Or.inl (by decide))

theorem swapCardTimers_found_same (now : Int)
    (m : List (Int × List UserCard)) (s c1 c2 : Int) (i1 i2 : ℕ)
    (hf1 : findCardIdx c1 ((mapGet m s).getD []) = some i1)
    (hf2 : findCardIdx c2 ((mapGet m s).getD []) = some i2) :
    swapCardTimers now m s c1 s c2
      = mapSet m s (swapMapSame i1 i2
          ((((mapGet m s).getD [])[i1]?).getD defaultCard).timer
          ((((mapGet m s).getD [])[i2]?).getD defaultCard).timer
          (progressOf now
            ((((mapGet m s).getD [])[i2]?).getD defaultCard).timer)
          (progressOf now
            ((((mapGet m s).getD [])[i1]?).getD defaultCard).timer)
          0 ((mapGet m s).getD [])) := by
  simp only [swapCardTimers, hf1, hf2, if_pos]

theorem swapCardTimers_found_diff (now : Int)
    (m : List (Int × List UserCard)) (s1 c1 s2 c2 : Int) (i1 i2 : ℕ)
    (hs : ¬ s1 = s2)
    (hf1 : findCardIdx c1 ((mapGet m s1).getD []) = some i1)
    (hf2 : findCardIdx c2 ((mapGet m s2).getD []) = some i2) :
    swapCardTimers now m s1 c1 s2 c2
      = mapSet
          (mapSet m s1 (updAt i1
            ((((mapGet m s2).getD [])[i2]?).getD defaultCard).timer
            (progressOf now
              ((((mapGet m s2).getD [])[i2]?).getD defaultCard).timer)
            0 ((mapGet m s1).getD [])))
          s2 (updAt i2
            ((((mapGet m s1).getD [])[i1]?).getD defaultCard).timer
            (progressOf now
              ((((mapGet m s1).getD [])[i1]?).getD defaultCard).timer)
            0 ((mapGet m s2).getD [])) := by
  simp only [swapCardTimers, hf1, hf2, if_neg hs]

theorem roundtrip_same (now1 now2 : Int) (m : List (Int × List UserCard))
    (s1 c1 c2 : Int) (i1 i2 : ℕ) (cardA cardB : UserCard)
    (hf1 : findCardIdx c1 ((mapGet m s1).getD []) = some i1)
    (hg1 : ((mapGet m s1).getD [])[i1]? = some cardA)
    (hf2 : findCardIdx c2 ((mapGet m s1).getD []) = some i2)
    (hg2 : ((mapGet m s1).getD [])[i2]? = some cardB) :
    (cardAt (swapCardTimers now2 (swapCardTimers now1 m s1 c1 s1 c2)
        s1 c2 s1 c1) s1 c1).map (fun c => c.timer) = some cardA.timer
    ∧ (cardAt (swapCardTimers now2 (swapCardTimers now1 m s1 c1 s1 c2)
        s1 c2 s1 c1) s1 c2).map (fun c => c.timer) = some cardB.timer := by
  have h1 := swapCardTimers_found_same now1 m s1 c1 c2 i1 i2 hf1 hf2
  rw [hg1, hg2] at h1
  simp only [Option.getD_some] at h1
  set nS := swapMapSame i1 i2 cardA.timer cardB.timer
    (progressOf now1 cardB.timer) (progressOf now1 cardA.timer) 0
    ((mapGet m s1).getD []) with hnS
  have hm1 : (mapGet (swapCardTimers now1 m s1 c1 s1 c2) s1).getD [] = nS := by
    rw [h1, mapGet_mapSet_self]
    rfl
  have hfn1 : findCardIdx c1 nS = some i1 := by
    rw [hnS, swapMapSame_id_preserved]
    exact hf1
  have hfn2 : findCardIdx c2 nS = some i2 := by
    rw [hnS, swapMapSame_id_preserved]
    exact hf2
  have hni1 : nS[i1]? = some { cardA with
      progressValue := progressOf now1 cardB.timer,
      timer := cardB.timer } := by
    rw [hnS, getElem?_swapMapSame, hg1]
    simp
  have h2 := swapCardTimers_found_same now2
    (swapCardTimers now1 m s1 c1 s1 c2) s1 c2 c1 i2 i1
    (by rw [hm1]; exact hfn2) (by rw [hm1]; exact hfn1)
  rw [hm1, hni1] at h2
  simp only [Option.getD_some] at h2
  by_cases hii : i2 = i1
  · have hAB : cardB = cardA := by
      rw [hii, hg1] at hg2
      exact (Option.some.inj hg2).symm
    subst hAB
    subst hii
    rw [hni1] at h2
    simp only [Option.getD_some] at h2
    set nS2 := swapMapSame i2 i2
      ({ cardB with
          progressValue := progressOf now1 cardB.timer,
          timer := cardB.timer }).timer
      ({ cardB with
          progressValue := progressOf now1 cardB.timer,
          timer := cardB.timer }).timer
      (progressOf now2 ({ cardB with
          progressValue := progressOf now1 cardB.timer,
          timer := cardB.timer }).timer)
      (progressOf now2 ({ cardB with
          progressValue := progressOf now1 cardB.timer,
          timer := cardB.timer }).timer)
      0 nS with hnS2
    have hm2 : (mapGet (swapCardTimers now2
        (swapCardTimers now1 m s1 c1 s1 c2) s1 c2 s1 c1) s1).getD []
        = nS2 := by
      rw [h2, mapGet_mapSet_self]
      rfl
    have hfin : findCardIdx c1 nS2 = some i2 := by
      rw [hnS2, swapMapSame_id_preserved]
      exact hfn1
    have hfin2 : findCardIdx c2 nS2 = some i2 := by
      rw [hnS2, swapMapSame_id_preserved]
      exact hfn2
    have hval : (nS2[i2]?).map (fun c => c.timer) = some cardB.timer := by
      rw [hnS2, getElem?_swapMapSame, hni1]
      simp
    constructor
    · simp only [cardAt, hm2, hfin]
      exact hval
    · simp only [cardAt, hm2, hfin2]
      exact hval
  · have hni2 : nS[i2]? = some { cardB with
        progressValue := progressOf now1 cardA.timer,
        timer := cardA.timer } := by
      rw [hnS, getElem?_swapMapSame, hg2]
      simp [hii]
    rw [hni2] at h2
    simp only [Option.getD_some] at h2
    set nS2 := swapMapSame i2 i1
      ({ cardB with
          progressValue := progressOf now1 cardA.timer,
          timer := cardA.timer }).timer
      ({ cardA with
          progressValue := progressOf now1 cardB.timer,
          timer := cardB.timer }).timer
      (progressOf now2 ({ cardA with
          progressValue := progressOf now1 cardB.timer,
          timer := cardB.timer }).timer)
      (progressOf now2 ({ cardB with
          progressValue := progressOf now1 cardA.timer,
          timer := cardA.timer }).timer)
      0 nS with hnS2
    have hm2 : (mapGet (swapCardTimers now2
        (swapCardTimers now1 m s1 c1 s1 c2) s1 c2 s1 c1) s1).getD []
        = nS2 := by
      rw [h2, mapGet_mapSet_self]
      rfl
    have hfin1 : findCardIdx c1 nS2 = some i1 := by
      rw [hnS2, swapMapSame_id_preserved]
      exact hfn1
    have hfin2 : findCardIdx c2 nS2 = some i2 := by
      rw [hnS2, swapMapSame_id_preserved]
      exact hfn2
    have hii' : ¬ i1 = i2 := fun h => hii h.symm
    have hval1 : (nS2[i1]?).map (fun c => c.timer) = some cardA.timer := by
      rw [hnS2, getElem?_swapMapSame, hni1]
      simp [hii']
    have hval2 : (nS2[i2]?).map (fun c => c.timer) = some cardB.timer := by
      rw [hnS2, getElem?_swapMapSame, hni2]
      simp
    constructor
    · simp only [cardAt, hm2, hfin1]
      exact hval1
    · simp only [cardAt, hm2, hfin2]
      exact hval2

theorem roundtrip_diff (now1 now2 : Int) (m : List (Int × List UserCard))
    (s1 c1 s2 c2 : Int) (i1 i2 : ℕ) (cardA cardB : UserCard)
    (hs : ¬ s1 = s2)
    (hf1 : findCardIdx c1 ((mapGet m s1).getD []) = some i1)
    (hg1 : ((mapGet m s1).getD [])[i1]? = some cardA)
    (hf2 : findCardIdx c2 ((mapGet m s2).getD []) = some i2)
    (hg2 : ((mapGet m s2).getD [])[i2]? = some cardB) :
    (cardAt (swapCardTimers now2 (swapCardTimers now1 m s1 c1 s2 c2)
        s2 c2 s1 c1) s1 c1).map (fun c => c.timer) = some cardA.timer
    ∧ (cardAt (swapCardTimers now2 (swapCardTimers now1 m s1 c1 s2 c2)
        s2 c2 s1 c1) s2 c2).map (fun c => c.timer) = some cardB.timer := by
  have hs' : ¬ s2 = s1 := fun h => hs h.symm
  have h1 := swapCardTimers_found_diff now1 m s1 c1 s2 c2 i1 i2 hs hf1 hf2
  rw [hg1, hg2] at h1
  simp only [Option.getD_some] at h1
  set n1 := updAt i1 cardB.timer (progressOf now1 cardB.timer) 0
    ((mapGet m s1).getD []) with hn1
  set n2 := updAt i2 cardA.timer (progressOf now1 cardA.timer) 0
    ((mapGet m s2).getD []) with hn2
  have hm1s2 : (mapGet (swapCardTimers now1 m s1 c1 s2 c2) s2).getD []
      = n2 := by
    rw [h1, mapGet_mapSet_self]
    rfl
  have hm1s1 : (mapGet (swapCardTimers now1 m s1 c1 s2 c2) s1).getD []
      = n1 := by
    rw [h1, mapGet_mapSet_other _ _ _ _ hs, mapGet_mapSet_self]
    rfl
  have hfn1 : findCardIdx c1 n1 = some i1 := by
    rw [hn1, updAt_id_preserved]
    exact hf1
  have hfn2 : findCardIdx c2 n2 = some i2 := by
    rw [hn2, updAt_id_preserved]
    exact hf2
  have hn1i1 : n1[i1]? = some { cardA with
      progressValue := progressOf now1 cardB.timer,
      timer := cardB.timer } := by
    rw [hn1, getElem?_updAt, hg1]
    simp
  have hn2i2 : n2[i2]? = some { cardB with
      progressValue := progressOf now1 cardA.timer,
      timer := cardA.timer } := by
    rw [hn2, getElem?_updAt, hg2]
    simp
  have h2 := swapCardTimers_found_diff now2
    (swapCardTimers now1 m s1 c1 s2 c2) s2 c2 s1 c1 i2 i1 hs'
    (by rw [hm1s2]; exact hfn2) (by rw [hm1s1]; exact hfn1)
  rw [hm1s1, hm1s2, hn1i1, hn2i2] at h2
  simp only [Option.getD_some] at h2
  set n1' := updAt i2
    ({ cardA with
        progressValue := progressOf now1 cardB.timer,
        timer := cardB.timer }).timer
    (progressOf now2 ({ cardA with
        progressValue := progressOf now1 cardB.timer,
        timer := cardB.timer }).timer) 0 n2 with hn1'
  set n2' := updAt i1
    ({ cardB with
        progressValue := progressOf now1 cardA.timer,
        timer := cardA.timer }).timer
    (progressOf now2 ({ cardB with
        progressValue := progressOf now1 cardA.timer,
        timer := cardA.timer }).timer) 0 n1 with hn2'
  have hm2s1 : (mapGet (swapCardTimers now2
      (swapCardTimers now1 m s1 c1 s2 c2) s2 c2 s1 c1) s1).getD []
      = n2' := by
    rw [h2, mapGet_mapSet_self]
    rfl
  have hm2s2 : (mapGet (swapCardTimers now2
      (swapCardTimers now1 m s1 c1 s2 c2) s2 c2 s1 c1) s2).getD []
      = n1' := by
    rw [h2, mapGet_mapSet_other _ _ _ _ hs', mapGet_mapSet_self]
    rfl
  have hfin1 : findCardIdx c1 n2' = some i1 := by
    rw [hn2', updAt_id_preserved]
    exact hfn1
  have hfin2 : findCardIdx c2 n1' = some i2 := by
    rw [hn1', updAt_id_preserved]
    exact hfn2
  have hval1 : (n2'[i1]?).map (fun c => c.timer) = some cardA.timer := by
    rw [hn2', getElem?_updAt, hn1i1]
    simp
  have hval2 : (n1'[i2]?).map (fun c => c.timer) = some cardB.timer := by
    rw [hn1', getElem?_updAt, hn2i2]
    simp
  constructor
  · simp only [cardAt, hm2s1, hfin1]
    exact hval1
  · simp only [cardAt, hm2s2, hfin2]
    exact hval2

/-- C5: swap round-trip. When card c1 exists in section s1 and card c2 in
section s2, swapping them and then swapping back restores both cards'
original timer values exactly (including absent timers), whether the two
sections are the same or different. -/
theorem swapCardTimers_roundtrip (now1 now2 : Int) (state : AppState)
    (s1 c1 s2 c2 : Int) (cardA cardB : UserCard)
    (hA : cardAt state.cardsBySection s1 c1 = some cardA)
    (hB : cardAt state.cardsBySection s2 c2 = some cardB) :
    (cardAt (handleSwapCardTimers now2
        (handleSwapCardTimers now1 state s1 c1 s2 c2)
        s2 c2 s1 c1).cardsBySection s1 c1).map (fun c => c.timer)
      = some cardA.timer
    ∧ (cardAt (handleSwapCardTimers now2
        (handleSwapCardTimers now1 state s1 c1 s2 c2)
        s2 c2 s1 c1).cardsBySection s2 c2).map (fun c => c.timer)
      = some cardB.timer := by
  cases hfa : findCardIdx c1 ((mapGet state.cardsBySection s1).getD [])
    with
  | none =>
    simp only [cardAt, hfa] at hA
    exact Option.noConfusion hA
  | some i1 =>
    simp only [cardAt, hfa] at hA
    cases hfb : findCardIdx c2 ((mapGet state.cardsBySection s2).getD [])
      with
    | none =>
      simp only [cardAt, hfb] at hB
      exact Option.noConfusion hB
    | some i2 =>
      simp only [cardAt, hfb] at hB
      show (cardAt (swapCardTimers now2 (swapCardTimers now1
          state.cardsBySection s1 c1 s2 c2) s2 c2 s1 c1) s1 c1).map
          (fun c => c.timer) = some cardA.timer
        ∧ (cardAt (swapCardTimers now2 (swapCardTimers now1
          state.cardsBySection s1 c1 s2 c2) s2 c2 s1 c1) s2 c2).map
          (fun c => c.timer) = some cardB.timer
      by_cases hss : s1 = s2
      · subst hss
        exact roundtrip_same now1 now2 state.cardsBySection s1 c1 c2
          i1 i2 cardA cardB hfa hA hfb hB
      · exact roundtrip_diff now1 now2 state.cardsBySection s1 c1 s2 c2
          i1 i2 cardA cardB hss hfa hA hfb hB

/-- Witness for C5: one cross-section round-trip (sections 1 and 2) and
one same-section round-trip (two cards of section 1), both restoring the
original timers, including an absent one. -/
theorem swapCardTimers_roundtrip_witness :
    ((cardAt (handleSwapCardTimers 7
        (handleSwapCardTimers 5
          ⟨[], [(1, [⟨1, "a", 0, some ⟨some 0, some 3600, 60, true⟩⟩,
                     ⟨2, "b", 0, none⟩]),
                (2, [⟨1, "c", 0, some ⟨some 10, some 20, 1, true⟩⟩])]⟩
          1 1 2 1) 2 1 1 1).cardsBySection 1 1).map (fun c => c.timer)
      = some (some ⟨some 0, some 3600, 60, true⟩)
    ∧ (cardAt (handleSwapCardTimers 7
        (handleSwapCardTimers 5
          ⟨[], [(1, [⟨1, "a", 0, some ⟨some 0, some 3600, 60, true⟩⟩,
                     ⟨2, "b", 0, none⟩]),
                (2, [⟨1, "c", 0, some ⟨some 10, some 20, 1, true⟩⟩])]⟩
          1 1 2 1) 2 1 1 1).cardsBySection 2 1).map (fun c => c.timer)
      = some (some ⟨some 10, some 20, 1, true⟩))
    ∧ ((cardAt (handleSwapCardTimers 7
        (handleSwapCardTimers 5
          ⟨[], [(1, [⟨1, "a", 0, some ⟨some 0, some 3600, 60, true⟩⟩,
                     ⟨2, "b", 0, none⟩])]⟩
          1 1 1 2) 1 2 1 1).cardsBySection 1 1).map (fun c => c.timer)
      = some (some ⟨some 0, some 3600, 60, true⟩)
    ∧ (cardAt (handleSwapCardTimers 7
        (handleSwapCardTimers 5
          ⟨[], [(1, [⟨1, "a", 0, some ⟨some 0, some 3600, 60, true⟩⟩,
                     ⟨2, "b", 0, none⟩])]⟩
          1 1 1 2) 1 2 1 1).cardsBySection 1 2).map (fun c => c.timer)
      = some none) :=
  ⟨swapCardTimers_roundtrip 5 7
      ⟨[], [(1, [⟨1, "a", 0, some ⟨some 0, some 3600, 60, true⟩⟩,
                 ⟨2, "b", 0, none⟩]),
            (2, [⟨1, "c", 0, some ⟨some 10, some 20, 1, true⟩⟩])]⟩
      1 1 2 1
      ⟨1, "a", 0, some ⟨some 0, some 3600, 60, true⟩⟩
      ⟨1, "c", 0, some ⟨some 10, some 20, 1, true⟩⟩ rfl rfl,
   swapCardTimers_roundtrip 5 7
      ⟨[], [(1, [⟨1, "a", 0, some ⟨some 0, some 3600, 60, true⟩⟩,
                 ⟨2, "b", 0, none⟩])]⟩
      1 1 1 2
      ⟨1, "a", 0, some ⟨some 0, some 3600, 60, true⟩⟩
      ⟨2, "b", 0, none⟩ rfl rfl⟩
